import Mathlib

/-!
The fetch-then-render script `blog.js`.

A shallow embedding of `src/js/blog.js`.

* A `Post` is the record read from `posts.json`; its text fields are strings and
  `tags` is optional (`none` stands for a missing, `undefined` or `null` field).
* Array objects have identity: they live in a heap (`World.heap`) and are named by
  their address, so that an in-place `sort` is visible as a heap write.
* The page is seen through the five `.cards-grid` containers the script selects:
  `World.grids id` is the `innerHTML` of the first `.cards-grid` element under the
  element with that id, `none` when `querySelector` finds no such element.  The five
  containers are taken to be distinct, unnested elements.
* `console.error` and the calls to `showPage` that return are recorded in the world;
  a call to `showPage` may also throw.
* What `Array.prototype.sort` leaves is fixed by the language only for a consistent
  comparator; otherwise the order is the engine's, and it is a parameter here.
-/

set_option maxRecDepth 20000

namespace Blog

/-! ## Data model -/

/-- A post record of `posts.json`. -/
structure Post where
  title : String
  description : String
  date : String
  link : String
  tags : Option (List String)
deriving DecidableEq, Repr

/-- Address of an array object. -/
abbrev Ref := Nat

/-- The fetched `data` object: its own properties in enumeration order, each holding
the address of an array of posts. -/
abbrev Data := List (String × Ref)

/-- Everything the script reads or writes. -/
structure World where
  /-- array objects, by address -/
  heap : List (List Post)
  /-- section id to the `innerHTML` of its `.cards-grid`, `none` if there is none -/
  grids : String → Option String
  /-- arguments of the `console.error` calls, oldest first -/
  console : List (String × String)
  /-- arguments of the `showPage` calls, oldest first -/
  shown : List String

/-! ## createCard -/

/-- The callback of `post.tags.map(...)`: the markup of one tag. -/
def tagSpan (t : String) : String :=
  "<span style=\"color:var(--accent); font-size:0.75rem; margin-right:8px;\">#" ++ t ++ "</span>"

/-- The value of `tagsHtml` in `createCard`: the joined tag spans when `post.tags` is
truthy (any array, the empty one included), the empty string otherwise. -/
def tagsHtml (post : Post) : String :=
  match post.tags with
  | some tags => String.join (tags.map tagSpan)
  | none => ""

/-- The template literal of `createCard` up to the `<div class="tags">` element. -/
def cardHead (post : Post) : String :=
  "\n        <article class=\"card\" onclick=\"window.location.href='" ++ post.link ++
  "'\" style=\"cursor: pointer;\">\n            <div class=\"meta\">\n                <span>> " ++
  post.date ++
  "</span>\n            </div>\n            <h3>" ++ post.title ++
  "</h3>\n            <p>" ++ post.description ++
  "</p>\n            "

/-- The `<div class="tags">` element of the template literal, around `tagsHtml`. -/
def tagsBlock (html : String) : String :=
  "<div class=\"tags\">\n                " ++ html ++ "\n            </div>"

/-- The template literal of `createCard` after the `<div class="tags">` element. -/
def cardTail : String :=
  "\n        </article>\n    "

/-- The function `createCard(post)`: the markup of one card. -/
def createCard (post : Post) : String :=
  cardHead post ++ tagsBlock (tagsHtml post) ++ cardTail

/-! ## Heap and page primitives -/

/-- The array stored at an address. -/
def World.read (w : World) (r : Ref) : List Post :=
  w.heap.getD r []

/-- A new array object: it gets the next free address. -/
def World.alloc (w : World) (a : List Post) : World × Ref :=
  ({ w with heap := w.heap ++ [a] }, w.heap.length)

/-- In-place update of the array object at an address. -/
def World.write (w : World) (r : Ref) (a : List Post) : World :=
  { w with heap := w.heap.set r a }

/-- The assignment `container.innerHTML = html` for the `.cards-grid` under `id`. -/
def World.setInnerHTML (w : World) (id html : String) : World :=
  { w with grids := fun k => if k = id then some html else w.grids k }

/-! ## Sorting by date -/

/-- The comparator `(a, b) => new Date(b.date) - new Date(a.date)`.  The argument `parse`
is the time value `new Date(s)` holds, `none` for an invalid date; the difference of
two time values is `none` (NaN) as soon as one of them is invalid. -/
def compareDates (parse : String → Option Int) (a b : Post) : Option Int :=
  match parse b.date, parse a.date with
  | some tb, some ta => some (tb - ta)
  | _, _ => none

/-- Whether `sort` may leave `a` in front of `b`: the comparator's value is not
positive, NaN being read as `+0`. -/
def keepsOrder (parse : String → Option Int) (a b : Post) : Bool :=
  match compareDates parse a b with
  | some v => decide (v ≤ 0)
  | none => true

/-- Insertion of `a` in front of the first element it may stay in front of. -/
def insertSorted (parse : String → Option Int) (a : Post) : List Post → List Post
  | [] => [a]
  | b :: bs => if keepsOrder parse a b then a :: b :: bs else b :: insertSorted parse a bs

/-- The stable sort by the comparator above: the order `Array.prototype.sort` must
leave when the comparator is consistent, as it is when every date is valid. -/
def jsSort (parse : String → Option Int) : List Post → List Post
  | [] => []
  | a :: rest => insertSorted parse a (jsSort parse rest)

/-- The order an engine leaves when the comparator is not consistent: the language
leaves it to the implementation, which rearranges the elements of the array. -/
abbrev Engine := (l : List Post) → { r : List Post // r.Perm l }

/-- The contents `allPosts.sort((a, b) => new Date(b.date) - new Date(a.date))` leaves:
the stable order by date when every date is valid, the engine's order as soon as a
date is invalid (the comparator then returns NaN and need not be consistent). -/
def arraySort (parse : String → Option Int) (engine : Engine) (l : List Post) : List Post :=
  if ∀ p ∈ l, (parse p.date).isSome then jsSort parse l else (engine l).1

/-! ## renderToGrid and renderHome -/

/-- The placeholder written for a category without posts. -/
def placeholder : String :=
  "<p style=\"color:var(--text-muted)\">// No entries found in this category.</p>"

/-- The function `renderToGrid(posts, containerId)`. -/
def renderToGrid (posts : Ref) (containerId : String) (w : World) : World :=
  match w.grids containerId with
  | none => w
  | some _ =>
    if (w.read posts).length = 0 then
      w.setInnerHTML containerId placeholder
    else
      w.setInnerHTML containerId (String.join ((w.read posts).map createCard))

/-- The callback `categoryArray => { allPosts = allPosts.concat(categoryArray); }`:
`concat` builds a new array and `allPosts` is rebound to it. -/
def concatStep (acc : World × Ref) (categoryArray : Ref) : World × Ref :=
  acc.1.alloc (acc.1.read acc.2 ++ acc.1.read categoryArray)

/-- The values `Object.values(data)` enumerates. -/
def objectValues (data : Data) : List Ref :=
  data.map Prod.snd

/-- The state of `renderHome` once `allPosts` is flattened and sorted: the world and
the address of `allPosts`. -/
def sortedAll (parse : String → Option Int) (engine : Engine) (data : Data) (w : World) :
    World × Ref :=
  let flat := (objectValues data).foldl concatStep (w.alloc [])
  (flat.1.write flat.2 (arraySort parse engine (flat.1.read flat.2)), flat.2)

/-- The state of `renderHome` after `allPosts.slice(0, 6)`: the world and the address
of `latest`. -/
def latestOf (parse : String → Option Int) (engine : Engine) (data : Data) (w : World) :
    World × Ref :=
  let s := sortedAll parse engine data w
  s.1.alloc ((s.1.read s.2).take 6)

/-- The function `renderHome(data)`. -/
def renderHome (parse : String → Option Int) (engine : Engine) (data : Data) (w : World) :
    World :=
  match w.grids "home-page" with
  | none => w
  | some _ =>
    let l := latestOf parse engine data w
    l.1.setInnerHTML "home-page" (String.join ((l.1.read l.2).map createCard))

/-! ## The DOMContentLoaded handler -/

/-- The object `mapping`, its properties in enumeration order. -/
def mapping : List (String × String) :=
  [("sat-notes", "sat-page"), ("technical", "technical-page"),
   ("case-studies", "cases-page"), ("book-reviews", "books-page")]

/-- The value of `data[jsonKey] || []`: the array held under the key, a new empty
array when the key is absent. -/
def postsOf (data : Data) (jsonKey : String) (w : World) : World × Ref :=
  match data.lookup jsonKey with
  | some r => (w, r)
  | none => w.alloc []

/-- The body of `Object.keys(mapping).forEach(jsonKey => ...)`. -/
def populate (data : Data) (w : World) (jsonKey : String) : World :=
  let targetId := (mapping.lookup jsonKey).getD "undefined"
  let p := postsOf data jsonKey w
  renderToGrid p.2 targetId p.1

/-- The world after `Object.keys(mapping).forEach(...)`. -/
def populated (data : Data) (w : World) : World :=
  (mapping.map Prod.fst).foldl (populate data) w

/-- The callback `data => { ... }` run on the parsed document. -/
def onData (parse : String → Option Int) (engine : Engine) (data : Data) (w : World) :
    World :=
  renderHome parse engine data (populated data w)

/-- The callback of `.catch`: one `console.error` call. -/
def onError (err : String) (w : World) : World :=
  { w with console := w.console ++ [("Critical Error: Could not load blog database.", err)] }

/-- The value of `window.location.hash.replace('#', '')`: a string pattern replaces
its first occurrence only. -/
def stripHash (locationHash : String) : String :=
  String.mk (locationHash.data.erase '#')

/-- Modelled from the spec: the page-navigation function `showPage` of `index.html`
is not part of the sources.  The global is either not a function (`none`) or a function
that, called with a page name, returns (`.ok ()`) or throws (`.error e`). -/
abbrev ShowPage := Option (String → Except String Unit)

/-- The deep-linking step `if (hash) { if (typeof showPage === 'function')
showPage(hash); }`: a call that returns is recorded, an exception of the call is not
caught and leaves the handler. -/
def deepLink (locationHash : String) (showPage : ShowPage) (w : World) : Except String World :=
  let hash := stripHash locationHash
  if hash ≠ "" then
    match showPage with
    | some f =>
      match f hash with
      | .ok _ => .ok { w with shown := w.shown ++ [hash] }
      | .error e => .error e
    | none => .ok w
  else .ok w

/-- The method `p.then(f)`: the callback runs on fulfilment, a rejection is passed on. -/
def promiseThen {α β : Type} (p : Except String α) (f : α → Except String β) : Except String β :=
  match p with
  | .ok v => f v
  | .error e => .error e

/-- The method `p.catch(g)`: the callback runs on rejection, a fulfilment is passed on. -/
def promiseCatch {α : Type} (p : Except String α) (g : String → Except String α) :
    Except String α :=
  match p with
  | .ok v => .ok v
  | .error e => g e

/-- The `DOMContentLoaded` handler together with the settlement of its promise chain.
The deep-linking step runs first; if `showPage` throws, the handler ends there and
`fetch` is never called.  Otherwise `fetched` is how
`fetch(...).then(response => response.json())` settles: rejected with an error (network
or parse failure), or fulfilled with the parsed document, that is the array objects it
created and the `data` object naming them.  The result is the world left behind, or
the error nobody handled. -/
def onDOMContentLoaded (parse : String → Option Int) (engine : Engine) (locationHash : String)
    (showPage : ShowPage) (fetched : Except String (List (List Post) × Data))
    (w : World) : Except String World :=
  match deepLink locationHash showPage w with
  | .error e => .error e
  | .ok w1 =>
    promiseCatch
      (promiseThen fetched (fun doc => .ok (onData parse engine doc.2 { w1 with heap := doc.1 })))
      (fun err => .ok (onError err w1))

/-! ## Vocabulary of the statements -/

/-- Contiguous occurrence of `s` in `t`. -/
def Occurs (s t : String) : Prop := s.data <:+: t.data

instance (s t : String) : Decidable (Occurs s t) := by
  unfold Occurs; infer_instance

/-- All posts of `data`: the arrays its properties hold, one after the other. -/
def allPostsOf (data : Data) (w : World) : List Post :=
  (data.map (fun kv => w.heap.getD kv.2 [])).flatten

/-- Every value of `data` is the address of an array of the heap. -/
def ValuesAreArrays (data : Data) (w : World) : Prop :=
  ∀ kv ∈ data, kv.2 < w.heap.length

instance (data : Data) (w : World) : Decidable (ValuesAreArrays data w) := by
  unfold ValuesAreArrays; infer_instance

/-- The post `q` is dated no earlier than `p`, both dates being valid. -/
def NoEarlier (parse : String → Option Int) (q p : Post) : Prop :=
  ∃ tq tp, parse q.date = some tq ∧ parse p.date = some tp ∧ tp ≤ tq


/-- The array `latest` of `renderHome`: the posts whose cards are written. -/
def latestPosts (parse : String → Option Int) (engine : Engine) (data : Data) (w : World) :
    List Post :=
  (latestOf parse engine data w).1.read (latestOf parse engine data w).2

/-- The markup the body of the `forEach` assigns for `jsonKey`. -/
def cellOf (data : Data) (w : World) (jsonKey : String) : String :=
  if ((postsOf data jsonKey w).1.read (postsOf data jsonKey w).2).length = 0 then placeholder
  else String.join (((postsOf data jsonKey w).1.read (postsOf data jsonKey w).2).map createCard)

/-- The world `w` with another record of navigation calls. -/
def World.withShown (w : World) (shown : List String) : World :=
  { w with shown := shown }

/-! ## A sample document -/

/-- Time values of a few ISO dates (midnight UTC, in milliseconds). -/
def sampleParse (s : String) : Option Int :=
  [("2024-01-01", (1704067200000 : Int)), ("2024-02-01", 1706745600000),
   ("2024-03-01", 1709251200000), ("2024-04-01", 1711929600000),
   ("2024-05-01", 1714521600000), ("2024-06-01", 1717200000000),
   ("2024-07-01", 1719792000000)].lookup s

/-- A post of the sample document. -/
def samplePost (n : String) (date : String) (tags : Option (List String)) : Post :=
  { title := "Post " ++ n, description := "About " ++ n, date := date,
    link := "/posts/" ++ n, tags := tags }

/-- The arrays of the sample document: three notes, two technical posts, no case
study, one book review and one post of an unmapped category. -/
def sampleHeap : List (List Post) :=
  [[samplePost "a" "2024-03-01" (some ["sat"]), samplePost "b" "2024-01-01" none,
    samplePost "c" "2024-07-01" (some [])],
   [samplePost "d" "2024-02-01" (some ["go", "js"]), samplePost "e" "2024-06-01" none],
   [],
   [samplePost "f" "2024-05-01" none],
   [samplePost "g" "2024-04-01" none]]

/-- The `data` object of the sample document. -/
def sampleData : Data :=
  [("sat-notes", 0), ("technical", 1), ("case-studies", 2), ("book-reviews", 3), ("drafts", 4)]

/-- A post whose fields hold markup and a single quote. -/
def markupPost : Post :=
  { title := "<b>Bold</b>", description := "a < b & c", date := "2024-01-01",
    link := "/p?q='x'", tags := some ["<i>t</i>"] }

/-- A `data` object whose four mapped keys all hold posts. -/
def fullData : Data :=
  [("sat-notes", 0), ("technical", 1), ("case-studies", 4), ("book-reviews", 3)]

/-- A page with the four category grids and the home grid, all empty. -/
def samplePage : World :=
  { heap := sampleHeap,
    grids := fun k =>
      if k ∈ ["sat-page", "technical-page", "cases-page", "books-page", "home-page"] then some ""
      else none,
    console := [],
    shown := [] }

/-- The sample arrays with the date of the last post left as a word no date parses
from. -/
def undatedHeap : List (List Post) :=
  [[samplePost "a" "2024-03-01" (some ["sat"]), samplePost "b" "2024-01-01" none,
    samplePost "c" "2024-07-01" (some [])],
   [samplePost "d" "2024-02-01" (some ["go", "js"]), samplePost "e" "2024-06-01" none],
   [],
   [samplePost "f" "2024-05-01" none],
   [samplePost "g" "soon" none]]

/-- The sample page over the arrays with an invalid date. -/
def undatedPage : World :=
  { heap := undatedHeap,
    grids := fun k =>
      if k ∈ ["sat-page", "technical-page", "cases-page", "books-page", "home-page"] then some ""
      else none,
    console := [],
    shown := [] }

/-- An engine that leaves the array reversed when the comparator is not consistent. -/
def reversingEngine : Engine :=
  fun l => ⟨l.reverse, List.reverse_perm l⟩

/-- A `showPage` that returns for every page name. -/
def returningShowPage : ShowPage :=
  some (fun _ => .ok ())

/-- A `showPage` that throws for every page name but `home`. -/
def throwingShowPage : ShowPage :=
  some (fun page => if page = "home" then .ok () else .error "TypeError: no such page")

/-- The same page without its home grid and without the technical grid. -/
def sparsePage : World :=
  { heap := sampleHeap,
    grids := fun k => if k ∈ ["sat-page", "cases-page", "books-page"] then some "" else none,
    console := [],
    shown := [] }

/-! ## Occurrences in the card markup -/

theorem Occurs.refl (s : String) : Occurs s s :=
  List.infix_refl s.data

theorem Occurs.within {s t u : String} (h₁ : Occurs s t) (h₂ : Occurs t u) : Occurs s u :=
  List.IsInfix.trans h₁ h₂

theorem Occurs.append_left {s t : String} (u : String) (h : Occurs s t) : Occurs s (u ++ t) := by
  unfold Occurs at *
  rw [String.data_append]
  exact h.trans (List.suffix_append u.data t.data).isInfix

theorem Occurs.append_right {s t : String} (u : String) (h : Occurs s t) : Occurs s (t ++ u) := by
  unfold Occurs at *
  rw [String.data_append]
  exact h.trans (List.prefix_append t.data u.data).isInfix

theorem occurs_join {s : String} {l : List String} (h : s ∈ l) : Occurs s (String.join l) := by
  unfold Occurs
  rw [String.join_eq]
  exact List.infix_of_mem_flatten (List.mem_map_of_mem String.data h)

theorem occurs_tagSpan (t : String) : Occurs t (tagSpan t) := by
  unfold tagSpan
  exact ((Occurs.refl t).append_left _).append_right _

theorem occurs_tagsBlock {s html : String} (h : Occurs s html) : Occurs s (tagsBlock html) := by
  unfold tagsBlock
  exact (h.append_left _).append_right _

theorem occurs_cardHead {s : String} {post : Post} (h : Occurs s (cardHead post)) :
    Occurs s (createCard post) := by
  unfold createCard
  exact (h.append_right _).append_right _

theorem tagsHtml_none {post : Post} (h : post.tags = none) : tagsHtml post = "" := by
  simp [tagsHtml, h]

/-- C3: for a post whose `tags` field is missing, `createCard` returns a card whose
`<div class="tags">` element holds whitespace only, so no `<span` occurs in it, and the
card equals the card of the same post with `tags` set to the empty list. -/
theorem createCard_missing_tags (post : Post) (h : post.tags = none) :
    tagsHtml post = "" ∧
    createCard post = cardHead post ++ tagsBlock "" ++ cardTail ∧
    ¬ Occurs "<span" (tagsBlock "") ∧
    createCard post = createCard { post with tags := some [] } := by
  refine ⟨tagsHtml_none h, ?_, by decide, ?_⟩
  · simp [createCard, tagsHtml_none h]
  · simp [createCard, tagsHtml, h, cardHead, String.join]

theorem createCard_missing_tags_witness :
    (⟨"T", "D", "2024-01-01", "/p", none⟩ : Post).tags = none ∧
    createCard ⟨"T", "D", "2024-01-01", "/p", none⟩ =
      createCard ⟨"T", "D", "2024-01-01", "/p", some []⟩ :=
  ⟨rfl, (createCard_missing_tags ⟨"T", "D", "2024-01-01", "/p", none⟩ rfl).2.2.2⟩

theorem occurs_of_eq {s t : String} (a b : String) (h : t = a ++ s ++ b) : Occurs s t := by
  subst h
  exact ((Occurs.refl s).append_left a).append_right b

/-- C9: `createCard` inserts the link, date, title and description of a post, and each
of its tags, verbatim: each occurs as a contiguous substring of the card, the link
between the single quotes of the `onclick` attribute and a tag between `#` and the
end of its `span`. -/
theorem createCard_verbatim (post : Post) :
    Occurs ("window.location.href='" ++ post.link ++ "'") (createCard post) ∧
    Occurs post.link (createCard post) ∧
    Occurs post.date (createCard post) ∧
    Occurs post.title (createCard post) ∧
    Occurs post.description (createCard post) ∧
    ∀ tags, post.tags = some tags → ∀ t ∈ tags,
      Occurs ("#" ++ t ++ "</span>") (createCard post) ∧ Occurs t (createCard post) := by
  have hlink : Occurs ("window.location.href='" ++ post.link ++ "'") (cardHead post) := by
    apply occurs_of_eq "\n        <article class=\"card\" onclick=\""
      ("\" style=\"cursor: pointer;\">\n            <div class=\"meta\">\n                <span>> " ++
        post.date ++ "</span>\n            </div>\n            <h3>" ++ post.title ++
        "</h3>\n            <p>" ++ post.description ++ "</p>\n            ")
    have e₁ : "\n        <article class=\"card\" onclick=\"window.location.href='" =
        "\n        <article class=\"card\" onclick=\"" ++ "window.location.href='" := by decide
    have e₂ : "'\" style=\"cursor: pointer;\">\n            <div class=\"meta\">\n                <span>> " =
        "'" ++ "\" style=\"cursor: pointer;\">\n            <div class=\"meta\">\n                <span>> " := by
      decide
    unfold cardHead
    rw [e₁, e₂]
    simp only [String.append_assoc]
  refine ⟨occurs_cardHead hlink, ?_, ?_, ?_, ?_, ?_⟩
  · exact occurs_cardHead
      (((Occurs.refl post.link).append_left _).append_right _ |>.within hlink)
  · apply occurs_cardHead
    unfold cardHead
    exact (((((((Occurs.refl post.date).append_left _).append_right _).append_right _).append_right
      _).append_right _).append_right _)
  · apply occurs_cardHead
    unfold cardHead
    exact (((((Occurs.refl post.title).append_left _).append_right _).append_right _).append_right _)
  · apply occurs_cardHead
    unfold cardHead
    exact (((Occurs.refl post.description).append_left _).append_right _)
  · intro tags htags t ht
    have hspan : Occurs (tagSpan t) (createCard post) := by
      have h₁ : Occurs (tagSpan t) (tagsHtml post) := by
        simp only [tagsHtml, htags]
        exact occurs_join (List.mem_map_of_mem tagSpan ht)
      unfold createCard
      exact ((occurs_tagsBlock h₁).append_left _).append_right _
    have hhash : Occurs ("#" ++ t ++ "</span>") (tagSpan t) := by
      apply occurs_of_eq "<span style=\"color:var(--accent); font-size:0.75rem; margin-right:8px;\">" ""
      have e : "<span style=\"color:var(--accent); font-size:0.75rem; margin-right:8px;\">#" =
          "<span style=\"color:var(--accent); font-size:0.75rem; margin-right:8px;\">" ++ "#" := by
        decide
      unfold tagSpan
      rw [e]
      simp only [String.append_assoc, String.append_empty]
    exact ⟨hhash.within hspan, (occurs_tagSpan t).within hspan⟩

theorem createCard_verbatim_witness :
    markupPost.tags = some ["<i>t</i>"] ∧ "<i>t</i>" ∈ ["<i>t</i>"] ∧
    Occurs "<i>t</i>" (createCard markupPost) ∧
    Occurs "window.location.href='/p?q='x''" (createCard markupPost) :=
  ⟨rfl, List.mem_singleton_self _,
    ((createCard_verbatim markupPost).2.2.2.2.2 ["<i>t</i>"] rfl "<i>t</i>"
      (List.mem_singleton_self _)).2,
    (createCard_verbatim markupPost).1⟩

/-! ## Heap lemmas -/

theorem read_alloc_new (w : World) (a : List Post) : (w.alloc a).1.read (w.alloc a).2 = a := by
  simp [World.read, World.alloc]

theorem read_of_prefix {w0 w : World} (h : w0.heap <+: w.heap) {r : Ref}
    (hr : r < w0.heap.length) : w.read r = w0.read r := by
  obtain ⟨t, ht⟩ := h
  simp [World.read, ← ht, List.getD_eq_getElem?_getD, List.getElem?_append_left hr]

theorem prefix_alloc (w : World) (a : List Post) : w.heap <+: (w.alloc a).1.heap :=
  List.prefix_append w.heap [a]

theorem prefix_write {w0 w : World} (h : w0.heap <+: w.heap) {r : Ref}
    (hr : w0.heap.length ≤ r) (a : List Post) : w0.heap <+: (w.write r a).heap := by
  obtain ⟨t, ht⟩ := h
  refine ⟨t.set (r - w0.heap.length) a, ?_⟩
  simp [World.write, ← ht, List.set_append, Nat.not_lt.mpr hr]

theorem read_write_same (w : World) {r : Ref} (hr : r < w.heap.length) (a : List Post) :
    (w.write r a).read r = a := by
  simp [World.read, World.write, List.getD_eq_getElem?_getD, hr]

/-- What the `forEach` of `renderHome` leaves untouched: the arrays that existed
before, the page, the console. -/
theorem foldl_concatStep_frame (w0 : World) (vs : List Ref) :
    ∀ acc : World × Ref, w0.heap <+: acc.1.heap → w0.heap.length ≤ acc.2 →
      acc.2 < acc.1.heap.length →
      w0.heap <+: (vs.foldl concatStep acc).1.heap ∧
      w0.heap.length ≤ (vs.foldl concatStep acc).2 ∧
      (vs.foldl concatStep acc).2 < (vs.foldl concatStep acc).1.heap.length ∧
      (vs.foldl concatStep acc).1.grids = acc.1.grids ∧
      (vs.foldl concatStep acc).1.console = acc.1.console ∧
      (vs.foldl concatStep acc).1.shown = acc.1.shown := by
  induction vs with
  | nil => intro acc h₁ h₂ h₃; exact ⟨h₁, h₂, h₃, rfl, rfl, rfl⟩
  | cons v vs ih =>
    intro acc h₁ h₂ h₃
    have hlen : w0.heap.length ≤ acc.1.heap.length := h₁.length_le
    have := ih (concatStep acc v) (h₁.trans (prefix_alloc _ _))
      (by simpa [concatStep, World.alloc] using hlen)
      (by simp [concatStep, World.alloc])
    simpa [List.foldl_cons, concatStep, World.alloc] using this

/-- The array `allPosts` after the `forEach` of `renderHome`. -/
theorem foldl_concatStep_read (w0 : World) (vs : List Ref) (hvs : ∀ r ∈ vs, r < w0.heap.length) :
    ∀ acc : World × Ref, w0.heap <+: acc.1.heap → acc.2 < acc.1.heap.length →
      (vs.foldl concatStep acc).1.read (vs.foldl concatStep acc).2 =
        acc.1.read acc.2 ++ (vs.map w0.read).flatten := by
  induction vs with
  | nil => intro acc _ _; simp
  | cons v vs ih =>
    intro acc h₁ h₃
    have hv : v < w0.heap.length := hvs v (List.mem_cons_self _ _)
    rw [List.foldl_cons, ih (fun r hr => hvs r (List.mem_cons_of_mem _ hr)) (concatStep acc v)
      (h₁.trans (prefix_alloc _ _)) (by simp [concatStep, World.alloc])]
    simp only [concatStep, read_alloc_new, read_of_prefix h₁ hv, List.map_cons, List.flatten_cons,
      List.append_assoc]

/-! ## The sort -/

theorem insertSorted_perm (parse : String → Option Int) (a : Post) (l : List Post) :
    (insertSorted parse a l).Perm (a :: l) := by
  induction l with
  | nil => exact List.Perm.refl _
  | cons b bs ih =>
    unfold insertSorted
    split
    · exact List.Perm.refl _
    · exact (List.Perm.cons b ih).trans (List.Perm.swap a b bs)

theorem jsSort_perm (parse : String → Option Int) (l : List Post) : (jsSort parse l).Perm l := by
  induction l with
  | nil => exact List.Perm.refl _
  | cons a rest ih =>
    unfold jsSort
    exact (insertSorted_perm parse a _).trans (List.Perm.cons a ih)

theorem jsSort_length (parse : String → Option Int) (l : List Post) :
    (jsSort parse l).length = l.length :=
  (jsSort_perm parse l).length_eq

theorem keepsOrder_iff (parse : String → Option Int) {a b : Post} {ta tb : Int}
    (ha : parse a.date = some ta) (hb : parse b.date = some tb) :
    keepsOrder parse a b = true ↔ tb ≤ ta := by
  simp [keepsOrder, compareDates, ha, hb]

theorem NoEarlier.chain {parse : String → Option Int} {a b c : Post}
    (h₁ : NoEarlier parse a b) (h₂ : NoEarlier parse b c) : NoEarlier parse a c := by
  obtain ⟨ta, tb, ha, hb, hab⟩ := h₁
  obtain ⟨tb', tc, hb', hc, hbc⟩ := h₂
  have : tb' = tb := by rw [hb] at hb'; exact (Option.some.inj hb').symm
  subst this
  exact ⟨ta, tc, ha, hc, le_trans hbc hab⟩

theorem insertSorted_sorted (parse : String → Option Int) (a : Post) (l : List Post)
    (ha : (parse a.date).isSome) (hl : ∀ p ∈ l, (parse p.date).isSome)
    (hs : l.Pairwise (NoEarlier parse)) :
    (insertSorted parse a l).Pairwise (NoEarlier parse) := by
  induction l with
  | nil => simp [insertSorted]
  | cons b bs ih =>
    obtain ⟨ta, hta⟩ := Option.isSome_iff_exists.mp ha
    obtain ⟨tb, htb⟩ := Option.isSome_iff_exists.mp (hl b (List.mem_cons_self _ _))
    have hbs := List.pairwise_cons.mp hs
    unfold insertSorted
    split
    · rename_i hk
      have hab : NoEarlier parse a b := ⟨ta, tb, hta, htb, (keepsOrder_iff parse hta htb).mp hk⟩
      refine List.pairwise_cons.mpr ⟨?_, hs⟩
      intro x hx
      rcases List.mem_cons.mp hx with rfl | hx
      · exact hab
      · exact hab.chain (hbs.1 x hx)
    · rename_i hk
      have hba : NoEarlier parse b a := by
        refine ⟨tb, ta, htb, hta, ?_⟩
        have := mt (keepsOrder_iff parse hta htb).mpr hk
        omega
      refine List.pairwise_cons.mpr ⟨?_, ih (fun p hp => hl p (List.mem_cons_of_mem _ hp)) hbs.2⟩
      intro x hx
      rcases List.mem_cons.mp ((insertSorted_perm parse a bs).mem_iff.mp hx) with rfl | hx
      · exact hba
      · exact hbs.1 x hx

/-- With valid dates only, the sort leaves the posts newest first. -/
theorem jsSort_sorted (parse : String → Option Int) (l : List Post)
    (hl : ∀ p ∈ l, (parse p.date).isSome) : (jsSort parse l).Pairwise (NoEarlier parse) := by
  induction l with
  | nil => simp [jsSort]
  | cons a rest ih =>
    unfold jsSort
    have hrest : ∀ p ∈ rest, (parse p.date).isSome := fun p hp => hl p (List.mem_cons_of_mem _ hp)
    exact insertSorted_sorted parse a _ (hl a (List.mem_cons_self _ _))
      (fun p hp => hrest p ((jsSort_perm parse rest).mem_iff.mp hp)) (ih hrest)

/-! ## renderHome -/

theorem arraySort_perm (parse : String → Option Int) (engine : Engine) (l : List Post) :
    (arraySort parse engine l).Perm l := by
  unfold arraySort
  split
  · exact jsSort_perm parse l
  · exact (engine l).2

theorem arraySort_valid (parse : String → Option Int) (engine : Engine) (l : List Post)
    (h : ∀ p ∈ l, (parse p.date).isSome) : arraySort parse engine l = jsSort parse l := by
  unfold arraySort
  rw [if_pos h]

theorem objectValues_reads (data : Data) (w : World) :
    ((objectValues data).map w.read).flatten = allPostsOf data w := by
  unfold objectValues allPostsOf
  rw [List.map_map]
  rfl

theorem objectValues_valid {data : Data} {w : World} (h : ValuesAreArrays data w) :
    ∀ r ∈ objectValues data, r < w.heap.length := by
  intro r hr
  obtain ⟨kv, hkv, rfl⟩ := List.mem_map.mp hr
  exact h kv hkv

theorem length_allPostsOf (data : Data) (w : World) :
    (allPostsOf data w).length = (data.map (fun kv => (w.heap.getD kv.2 []).length)).sum := by
  unfold allPostsOf
  rw [List.length_flatten, List.map_map]
  rfl

/-- The posts `renderHome` holds in `latest`. -/
theorem latestOf_read (parse : String → Option Int) (engine : Engine) (data : Data) (w : World)
    (h : ValuesAreArrays data w) :
    (latestOf parse engine data w).1.read (latestOf parse engine data w).2 =
      (arraySort parse engine (allPostsOf data w)).take 6 := by
  have hf := foldl_concatStep_frame w (objectValues data) (w.alloc [])
    (prefix_alloc w []) (by simp [World.alloc]) (by simp [World.alloc])
  have hr := foldl_concatStep_read w (objectValues data) (objectValues_valid h) (w.alloc [])
    (prefix_alloc w []) (by simp [World.alloc])
  rw [read_alloc_new, objectValues_reads] at hr
  simp only [latestOf, sortedAll, read_alloc_new, read_write_same _ hf.2.2.1, hr,
    List.nil_append]

/-- What `renderHome` leaves untouched: the arrays that existed before the call, every
container but the home grid, the console and the navigation record. -/
theorem renderHome_frame (parse : String → Option Int) (engine : Engine) (data : Data)
    (w : World) :
    w.heap <+: (renderHome parse engine data w).heap ∧
    (∀ k, k ≠ "home-page" → (renderHome parse engine data w).grids k = w.grids k) ∧
    (renderHome parse engine data w).console = w.console ∧
    (renderHome parse engine data w).shown = w.shown := by
  have hf := foldl_concatStep_frame w (objectValues data) (w.alloc [])
    (prefix_alloc w []) (by simp [World.alloc]) (by simp [World.alloc])
  unfold renderHome
  split
  · exact ⟨List.prefix_refl _, fun _ _ => rfl, rfl, rfl⟩
  · refine ⟨?_, ?_, ?_, ?_⟩
    · exact (prefix_write hf.1 hf.2.1 _).trans (prefix_alloc _ _)
    · intro k hk
      simp only [World.setInnerHTML, latestOf, sortedAll, World.alloc, World.write, hk, if_false]
      exact congrFun hf.2.2.2.1 k
    · simpa [World.setInnerHTML, latestOf, sortedAll, World.alloc, World.write] using hf.2.2.2.2.1
    · simpa [World.setInnerHTML, latestOf, sortedAll, World.alloc, World.write] using hf.2.2.2.2.2

/-- The markup `renderHome` assigns to the home grid, when there is one. -/
theorem renderHome_home (parse : String → Option Int) (engine : Engine) (data : Data)
    (w : World) (h : ValuesAreArrays data w) :
    (renderHome parse engine data w).grids "home-page" =
      (w.grids "home-page").map (fun _ =>
        String.join (((arraySort parse engine (allPostsOf data w)).take 6).map createCard)) := by
  unfold renderHome
  split
  · rename_i hg; simp [hg]
  · rename_i x hg
    simp [hg, World.setInnerHTML, latestOf_read parse engine data w h]

/-! ## The category grids -/

theorem read_alloc_nil (w : World) (r : Ref) : (w.alloc []).1.read r = w.read r := by
  simp only [World.read, World.alloc, List.getD_eq_getElem?_getD]
  rcases Nat.lt_trichotomy r w.heap.length with h | h | h
  · simp [List.getElem?_append_left h]
  · subst h; simp
  · rw [List.getElem?_eq_none (by simp; omega), List.getElem?_eq_none (by omega)]

theorem cellOf_eq (data : Data) (w : World) (jsonKey : String) :
    cellOf data w jsonKey =
      match data.lookup jsonKey with
      | some r =>
        if (w.read r).length = 0 then placeholder else String.join ((w.read r).map createCard)
      | none => placeholder := by
  unfold cellOf postsOf
  cases data.lookup jsonKey with
  | none => simp [read_alloc_new]
  | some r => simp

theorem cellOf_congr (data : Data) {w w' : World} (h : ∀ r, w'.read r = w.read r)
    (jsonKey : String) : cellOf data w' jsonKey = cellOf data w jsonKey := by
  rw [cellOf_eq, cellOf_eq]
  cases data.lookup jsonKey with
  | none => rfl
  | some r => simp [h r]

theorem populate_read (data : Data) (w : World) (jsonKey : String) (r : Ref) :
    (populate data w jsonKey).read r = w.read r := by
  unfold populate renderToGrid postsOf
  cases data.lookup jsonKey <;> simp only [] <;> split <;> try split
  all_goals first
    | rfl
    | exact read_alloc_nil w r

theorem populate_heap (data : Data) (w : World) (jsonKey : String) :
    w.heap <+: (populate data w jsonKey).heap := by
  unfold populate renderToGrid postsOf
  cases data.lookup jsonKey <;> simp only [] <;> split <;> try split
  all_goals first
    | exact List.prefix_refl _
    | exact prefix_alloc w []

theorem populate_console (data : Data) (w : World) (jsonKey : String) :
    (populate data w jsonKey).console = w.console ∧ (populate data w jsonKey).shown = w.shown := by
  unfold populate renderToGrid postsOf
  cases data.lookup jsonKey <;> simp only [] <;> split <;> try split
  all_goals exact ⟨rfl, rfl⟩

/-- The containers after one round of the `forEach`: only the target of the key can
change, and only if it exists. -/
theorem populate_grids (data : Data) (w : World) (jsonKey k : String) :
    (populate data w jsonKey).grids k =
      if k = (mapping.lookup jsonKey).getD "undefined" then
        (w.grids k).map (fun _ => cellOf data w jsonKey)
      else w.grids k := by
  by_cases hk : k = (mapping.lookup jsonKey).getD "undefined"
  · subst hk
    simp only [if_true]
    unfold populate renderToGrid cellOf
    have hg : ∀ a, ((postsOf data jsonKey w).1).grids a = w.grids a := by
      intro a; unfold postsOf; cases data.lookup jsonKey <;> rfl
    simp only [hg]
    cases hw : w.grids ((mapping.lookup jsonKey).getD "undefined") with
    | none => simp [hg, hw]
    | some x =>
      simp only [Option.map_some']
      split <;> simp [World.setInnerHTML]
  · simp only [hk, if_false]
    unfold populate renderToGrid
    have hg : ∀ a, ((postsOf data jsonKey w).1).grids a = w.grids a := by
      intro a; unfold postsOf; cases data.lookup jsonKey <;> rfl
    simp only [hg]
    cases hw : w.grids ((mapping.lookup jsonKey).getD "undefined") with
    | none => simp [hg]
    | some x =>
      simp only []
      split <;> simp [World.setInnerHTML, hk, hg]

theorem populated_read (data : Data) (w : World) (r : Ref) :
    (populated data w).read r = w.read r := by
  simp [populated, mapping, populate_read]

theorem populated_heap (data : Data) (w : World) : w.heap <+: (populated data w).heap := by
  simp only [populated, mapping, List.map, List.foldl]
  exact (((populate_heap data w _).trans (populate_heap data _ _)).trans
    (populate_heap data _ _)).trans (populate_heap data _ _)

theorem populated_console (data : Data) (w : World) :
    (populated data w).console = w.console ∧ (populated data w).shown = w.shown := by
  simp [populated, mapping, populate_console]

/-- The containers after the `forEach`: the grid of each mapped category, if it exists,
holds the markup of its key; every other container is as before. -/
theorem populated_grids (data : Data) (w : World) (k : String) :
    (populated data w).grids k =
      match mapping.find? (fun kt => kt.2 = k) with
      | some kt => (w.grids k).map (fun _ => cellOf data w kt.1)
      | none => w.grids k := by
  have hc : ∀ (w' : World) (key : String), (∀ r, w'.read r = w.read r) →
      cellOf data w' key = cellOf data w key := fun w' key h => cellOf_congr data h key
  have r1 := populate_read data w "sat-notes"
  have r2 : ∀ r, (populate data (populate data w "sat-notes") "technical").read r = w.read r :=
    fun r => (populate_read data _ _ r).trans (r1 r)
  have r3 : ∀ r, (populate data (populate data (populate data w "sat-notes") "technical")
      "case-studies").read r = w.read r :=
    fun r => (populate_read data _ _ r).trans (r2 r)
  have l1 : mapping.lookup "sat-notes" = some "sat-page" := by decide
  have l2 : mapping.lookup "technical" = some "technical-page" := by decide
  have l3 : mapping.lookup "case-studies" = some "cases-page" := by decide
  have l4 : mapping.lookup "book-reviews" = some "books-page" := by decide
  have hkeys : mapping.map Prod.fst = ["sat-notes", "technical", "case-studies", "book-reviews"] :=
    rfl
  simp only [populated, hkeys, List.foldl, populate_grids, l1, l2, l3, l4, Option.getD_some,
    hc _ _ r1, hc _ _ r2, hc _ _ r3]
  by_cases h1 : k = "sat-page"
  · subst h1; simp [mapping, List.find?]
  by_cases h2 : k = "technical-page"
  · subst h2; simp [mapping, List.find?]
  by_cases h3 : k = "cases-page"
  · subst h3; simp [mapping, List.find?]
  by_cases h4 : k = "books-page"
  · subst h4; simp [mapping, List.find?]
  simp [mapping, List.find?, h1, h2, h3, h4, Ne.symm h1, Ne.symm h2, Ne.symm h3, Ne.symm h4]

/-! ## The callback on the parsed document -/

theorem mapping_find (kt : String × String) (h : kt ∈ mapping) :
    mapping.find? (fun x => x.2 = kt.2) = some kt ∧ kt.2 ≠ "home-page" := by
  simp only [mapping, List.mem_cons, List.mem_singleton, List.not_mem_nil, or_false] at h
  rcases h with rfl | rfl | rfl | rfl <;> exact ⟨by decide, by decide⟩

/-- The grid of each mapped category after the callback: written with the markup of
its key if it exists, whatever the other containers. -/
theorem onData_grids_category (parse : String → Option Int) (engine : Engine) (data : Data)
    (w : World) (kt : String × String) (h : kt ∈ mapping) :
    (onData parse engine data w).grids kt.2 =
      (w.grids kt.2).map (fun _ => cellOf data w kt.1) := by
  unfold onData
  rw [(renderHome_frame parse engine data _).2.1 _ (mapping_find kt h).2, populated_grids,
    (mapping_find kt h).1]

theorem valuesAreArrays_populated {data : Data} {w : World} (h : ValuesAreArrays data w) :
    ValuesAreArrays data (populated data w) :=
  fun kv hkv => lt_of_lt_of_le (h kv hkv) (populated_heap data w).length_le

theorem allPostsOf_populated (data : Data) (w : World) :
    allPostsOf data (populated data w) = allPostsOf data w := by
  unfold allPostsOf
  congr 1
  exact List.map_congr_left (fun kv _ => populated_read data w kv.2)

/-- The home grid after the callback. -/
theorem onData_grids_home (parse : String → Option Int) (engine : Engine) (data : Data)
    (w : World) (h : ValuesAreArrays data w) :
    (onData parse engine data w).grids "home-page" =
      (w.grids "home-page").map (fun _ =>
        String.join (((arraySort parse engine (allPostsOf data w)).take 6).map createCard)) := by
  unfold onData
  rw [renderHome_home parse engine data _ (valuesAreArrays_populated h), allPostsOf_populated,
    populated_grids]
  have : mapping.find? (fun x => x.2 = "home-page") = none := by decide
  rw [this]

/-- What the callback leaves untouched. -/
theorem onData_frame (parse : String → Option Int) (engine : Engine) (data : Data)
    (w : World) :
    w.heap <+: (onData parse engine data w).heap ∧
    (onData parse engine data w).console = w.console ∧
    (onData parse engine data w).shown = w.shown := by
  unfold onData
  have h := renderHome_frame parse engine data (populated data w)
  exact ⟨(populated_heap data w).trans h.1, h.2.2.1.trans (populated_console data w).1,
    h.2.2.2.trans (populated_console data w).2⟩

theorem latestPosts_eq (parse : String → Option Int) (engine : Engine) (data : Data)
    (w : World) (h : ValuesAreArrays data w) :
    latestPosts parse engine data w = (arraySort parse engine (allPostsOf data w)).take 6 :=
  latestOf_read parse engine data w h

/-! ## The deep-linking step and the handler -/

/-- The three ways the deep-linking step can go. -/
theorem deepLink_cases (locationHash : String) (showPage : ShowPage) (w : World) :
    ((stripHash locationHash = "" ∨ showPage = none) →
      deepLink locationHash showPage w = .ok w) ∧
    (∀ f u, stripHash locationHash ≠ "" → showPage = some f →
      f (stripHash locationHash) = .ok u →
      deepLink locationHash showPage w =
        .ok (w.withShown (w.shown ++ [stripHash locationHash]))) ∧
    (∀ f e, stripHash locationHash ≠ "" → showPage = some f →
      f (stripHash locationHash) = .error e →
      deepLink locationHash showPage w = .error e) := by
  refine ⟨?_, ?_, ?_⟩
  · rintro (h | h)
    · simp [deepLink, h]
    · subst h
      by_cases hs : stripHash locationHash = "" <;> simp [deepLink, hs]
  · intro f u hs hf hu
    subst hf
    simp [deepLink, hs, hu, World.withShown]
  · intro f e hs hf he
    subst hf
    simp [deepLink, hs, he]

/-- A deep-linking step that returns changes the navigation record at most. -/
theorem deepLink_ok {locationHash : String} {showPage : ShowPage} {w w1 : World}
    (h : deepLink locationHash showPage w = .ok w1) : w1 = w.withShown w1.shown := by
  by_cases hs : stripHash locationHash = ""
  · rw [(deepLink_cases locationHash showPage w).1 (Or.inl hs)] at h
    cases h; rfl
  · cases hp : showPage with
    | none =>
      rw [(deepLink_cases locationHash showPage w).1 (Or.inr hp)] at h
      cases h; rfl
    | some f =>
      cases hf : f (stripHash locationHash) with
      | ok u =>
        rw [(deepLink_cases locationHash showPage w).2.1 f u hs hp hf] at h
        cases h; rfl
      | error e =>
        rw [(deepLink_cases locationHash showPage w).2.2 f e hs hp hf] at h
        cases h

theorem deepLink_returns {locationHash : String} {showPage : ShowPage} {w : World}
    (h : ∀ e, deepLink locationHash showPage w ≠ .error e) :
    ∃ w1, deepLink locationHash showPage w = .ok w1 := by
  cases hd : deepLink locationHash showPage w with
  | ok w1 => exact ⟨w1, rfl⟩
  | error e => exact absurd hd (h e)

/-- Once the deep-linking step has returned, the handler ends without an unhandled
error; its result is the world below. -/
theorem onDOMContentLoaded_eq (parse : String → Option Int) (engine : Engine)
    (locationHash : String) (showPage : ShowPage)
    (fetched : Except String (List (List Post) × Data)) (w w1 : World)
    (h : deepLink locationHash showPage w = .ok w1) :
    onDOMContentLoaded parse engine locationHash showPage fetched w =
      .ok (match fetched with
        | .error err => onError err w1
        | .ok doc => onData parse engine doc.2 { w1 with heap := doc.1 }) := by
  unfold onDOMContentLoaded
  rw [h]
  cases fetched <;> rfl

/-- An exception of `showPage` is the handler's result. -/
theorem onDOMContentLoaded_throw (parse : String → Option Int) (engine : Engine)
    (locationHash : String) (showPage : ShowPage)
    (fetched : Except String (List (List Post) × Data)) (w : World) (e : String)
    (h : deepLink locationHash showPage w = .error e) :
    onDOMContentLoaded parse engine locationHash showPage fetched w = .error e := by
  unfold onDOMContentLoaded
  rw [h]

/-! ## Rendering does not depend on the navigation record -/

theorem renderToGrid_withShown (posts : Ref) (containerId : String) (w : World)
    (s : List String) :
    renderToGrid posts containerId (w.withShown s) =
      (renderToGrid posts containerId w).withShown s := by
  unfold renderToGrid
  have hg : (w.withShown s).grids containerId = w.grids containerId := rfl
  have hr : (w.withShown s).read posts = w.read posts := rfl
  rw [hg, hr]
  cases w.grids containerId with
  | none => rfl
  | some x => simp only []; split <;> rfl

theorem populate_withShown (data : Data) (w : World) (jsonKey : String) (s : List String) :
    populate data (w.withShown s) jsonKey = (populate data w jsonKey).withShown s := by
  unfold populate postsOf
  cases data.lookup jsonKey with
  | none => exact renderToGrid_withShown _ _ (w.alloc []).1 s
  | some r => exact renderToGrid_withShown _ _ w s

theorem populated_withShown (data : Data) (w : World) (s : List String) :
    populated data (w.withShown s) = (populated data w).withShown s := by
  simp [populated, mapping, populate_withShown]

theorem foldl_concatStep_withShown (vs : List Ref) (s : List String) :
    ∀ acc : World × Ref,
      vs.foldl concatStep (acc.1.withShown s, acc.2) =
        (((vs.foldl concatStep acc).1).withShown s, (vs.foldl concatStep acc).2) := by
  induction vs with
  | nil => intro acc; rfl
  | cons v vs ih =>
    intro acc
    rw [List.foldl_cons, List.foldl_cons]
    exact ih (concatStep acc v)

theorem renderHome_withShown (parse : String → Option Int) (engine : Engine) (data : Data)
    (w : World) (s : List String) :
    renderHome parse engine data (w.withShown s) =
      (renderHome parse engine data w).withShown s := by
  unfold renderHome
  have hg : (w.withShown s).grids "home-page" = w.grids "home-page" := rfl
  rw [hg]
  cases w.grids "home-page" with
  | none => rfl
  | some x =>
    simp only [latestOf, sortedAll]
    have h := foldl_concatStep_withShown (objectValues data) s (w.alloc [])
    have e : (w.withShown s).alloc [] = ((w.alloc []).1.withShown s, (w.alloc []).2) := rfl
    rw [e, h]
    rfl

theorem onData_withShown (parse : String → Option Int) (engine : Engine) (data : Data)
    (w : World) (s : List String) :
    onData parse engine data (w.withShown s) = (onData parse engine data w).withShown s := by
  unfold onData
  rw [populated_withShown, renderHome_withShown]

/-- What the promise chain leaves, apart from the navigation record, is the same
whatever the deep-linking step recorded. -/
theorem settled_withShown (parse : String → Option Int) (engine : Engine)
    (fetched : Except String (List (List Post) × Data)) (w : World) (s : List String) :
    (match fetched with
      | .error err => onError err (w.withShown s)
      | .ok doc => onData parse engine doc.2 { w.withShown s with heap := doc.1 }) =
    (match fetched with
      | .error err => onError err w
      | .ok doc => onData parse engine doc.2 { w with heap := doc.1 }).withShown s := by
  cases fetched with
  | error err => rfl
  | ok doc =>
    have e : ({ w.withShown s with heap := doc.1 } : World) =
        ({ w with heap := doc.1 } : World).withShown s := rfl
    simp only [e, onData_withShown]

theorem settled_shown (parse : String → Option Int) (engine : Engine)
    (fetched : Except String (List (List Post) × Data)) (w : World) :
    (match fetched with
      | .error err => onError err w
      | .ok doc => onData parse engine doc.2 { w with heap := doc.1 }).shown = w.shown := by
  cases fetched with
  | error err => rfl
  | ok doc => exact (onData_frame parse engine doc.2 _).2.2

theorem stripHash_hash (s : String) : stripHash ("#" ++ s) = s := by
  have h : ("#" ++ s).data = '#' :: s.data := by rw [String.data_append]; rfl
  simp [stripHash, h]

/-! ## The claims -/

/-- C1: when the fetched document holds a non-empty array under each of the four mapped
keys and the four category grids exist, the page-load handler leaves in the grid of
`sat-page`, `technical-page`, `cases-page`, `books-page` exactly the concatenation of
`createCard(p)` over the posts `p` of the array of `sat-notes`, `technical`,
`case-studies`, `book-reviews` respectively, in the array's order.  A document is
fetched only if the deep-linking step before the `fetch` did not throw. -/
theorem onLoad_groups_by_category (parse : String → Option Int) (engine : Engine)
    (locationHash : String) (showPage : ShowPage) (heap : List (List Post)) (data : Data)
    (w : World)
    (hfetch : ∀ e, deepLink locationHash showPage w ≠ .error e)
    (hposts : ∀ kt ∈ mapping, ∃ r, data.lookup kt.1 = some r ∧ heap.getD r [] ≠ [])
    (hgrids : ∀ kt ∈ mapping, (w.grids kt.2).isSome) :
    ∃ w', onDOMContentLoaded parse engine locationHash showPage (.ok (heap, data)) w = .ok w' ∧
      ∀ kt ∈ mapping, ∀ r, data.lookup kt.1 = some r →
        w'.grids kt.2 = some (String.join ((heap.getD r []).map createCard)) := by
  obtain ⟨w1, hw1⟩ := deepLink_returns hfetch
  refine ⟨_, onDOMContentLoaded_eq parse engine locationHash showPage (.ok (heap, data)) w w1 hw1,
    ?_⟩
  intro kt hkt r hr
  obtain ⟨r', hr', hne⟩ := hposts kt hkt
  obtain rfl : r' = r := Option.some.inj (hr'.symm.trans hr)
  obtain ⟨x, hx⟩ := Option.isSome_iff_exists.mp (hgrids kt hkt)
  simp only []
  rw [onData_grids_category parse engine data _ kt hkt, cellOf_eq, hr]
  have hg : w1.grids kt.2 = some x := by
    rw [deepLink_ok hw1]; exact hx
  have hne' : ¬ heap[r']?.getD [] = [] := by
    simpa [List.getD_eq_getElem?_getD] using hne
  simp [hg, World.read, hne']

theorem onLoad_groups_by_category_witness :
    (∀ e, deepLink "#sat" returningShowPage samplePage ≠ .error e) ∧
    (∀ kt ∈ mapping, ∃ r, fullData.lookup kt.1 = some r ∧ sampleHeap.getD r [] ≠ []) ∧
    (∀ kt ∈ mapping, (samplePage.grids kt.2).isSome) ∧
    ∃ w', onDOMContentLoaded sampleParse reversingEngine "#sat" returningShowPage
        (.ok (sampleHeap, fullData)) samplePage = .ok w' ∧
      ∀ kt ∈ mapping, ∀ r, fullData.lookup kt.1 = some r →
        w'.grids kt.2 = some (String.join ((sampleHeap.getD r []).map createCard)) :=
  have h₀ : ∀ e, deepLink "#sat" returningShowPage samplePage ≠ .error e := by
    intro e h
    rw [(deepLink_cases "#sat" returningShowPage samplePage).2.1 _ () (by decide) rfl rfl] at h
    cases h
  have h₁ : ∀ kt ∈ mapping, ∃ r, fullData.lookup kt.1 = some r ∧ sampleHeap.getD r [] ≠ [] := by
    intro kt hkt
    simp only [mapping, List.mem_cons, List.mem_singleton, List.not_mem_nil, or_false] at hkt
    rcases hkt with rfl | rfl | rfl | rfl
    · exact ⟨0, by decide, by simp [sampleHeap]⟩
    · exact ⟨1, by decide, by simp [sampleHeap]⟩
    · exact ⟨4, by decide, by simp [sampleHeap]⟩
    · exact ⟨3, by decide, by simp [sampleHeap]⟩
  have h₂ : ∀ kt ∈ mapping, (samplePage.grids kt.2).isSome := by decide
  ⟨h₀, h₁, h₂,
    onLoad_groups_by_category sampleParse reversingEngine "#sat" returningShowPage sampleHeap
      fullData samplePage h₀ h₁ h₂⟩

/-- C2: for a `data` object whose values are arrays of posts with valid dates, at least
six posts in all, `renderHome` writes the cards of the array `latest`, which holds
exactly six posts, newest first; the posts left out (`rest`, so that `latest` and
`rest` together are the posts of `data`) are dated no later than any post shown. -/
theorem renderHome_six_most_recent (parse : String → Option Int) (engine : Engine)
    (data : Data) (w : World)
    (harr : ValuesAreArrays data w)
    (hdates : ∀ p ∈ allPostsOf data w, (parse p.date).isSome)
    (hsix : 6 ≤ (allPostsOf data w).length) :
    (renderHome parse engine data w).grids "home-page" =
      (w.grids "home-page").map
        (fun _ => String.join ((latestPosts parse engine data w).map createCard)) ∧
    (latestPosts parse engine data w).length = 6 ∧
    (latestPosts parse engine data w).Pairwise (NoEarlier parse) ∧
    ∃ rest, (latestPosts parse engine data w ++ rest).Perm (allPostsOf data w) ∧
      ∀ p ∈ rest, ∀ q ∈ latestPosts parse engine data w, NoEarlier parse q p := by
  have hsorted := jsSort_sorted parse (allPostsOf data w) hdates
  rw [← List.take_append_drop 6 (jsSort parse (allPostsOf data w))] at hsorted
  have hsplit := List.pairwise_append.mp hsorted
  have hhome := renderHome_home parse engine data w harr
  rw [latestPosts_eq parse engine data w harr]
  rw [arraySort_valid parse engine _ hdates] at hhome ⊢
  refine ⟨hhome, ?_, hsplit.1, ?_⟩
  · rw [List.length_take, jsSort_length]; omega
  · refine ⟨(jsSort parse (allPostsOf data w)).drop 6, ?_, fun p hp q hq => hsplit.2.2 q hq p hp⟩
    rw [List.take_append_drop]
    exact jsSort_perm parse _

theorem renderHome_six_most_recent_witness :
    ValuesAreArrays sampleData samplePage ∧
    (∀ p ∈ allPostsOf sampleData samplePage, (sampleParse p.date).isSome) ∧
    6 ≤ (allPostsOf sampleData samplePage).length ∧
    (latestPosts sampleParse reversingEngine sampleData samplePage).length = 6 ∧
    (latestPosts sampleParse reversingEngine sampleData samplePage).Pairwise
      (NoEarlier sampleParse) ∧
    (latestPosts sampleParse reversingEngine sampleData samplePage).map (fun p => p.date) =
      ["2024-07-01", "2024-06-01", "2024-05-01", "2024-04-01", "2024-03-01", "2024-02-01"] ∧
    (renderHome sampleParse reversingEngine sampleData samplePage).grids "home-page" =
      some (String.join
        ((latestPosts sampleParse reversingEngine sampleData samplePage).map createCard)) :=
  have h₁ : ValuesAreArrays sampleData samplePage := by decide
  have h₂ : ∀ p ∈ allPostsOf sampleData samplePage, (sampleParse p.date).isSome := by decide
  have h₃ : 6 ≤ (allPostsOf sampleData samplePage).length := by decide
  ⟨h₁, h₂, h₃,
    (renderHome_six_most_recent sampleParse reversingEngine sampleData samplePage h₁ h₂ h₃).2.1,
    (renderHome_six_most_recent sampleParse reversingEngine sampleData samplePage h₁ h₂ h₃).2.2.1,
    by decide,
    (renderHome_six_most_recent sampleParse reversingEngine sampleData samplePage h₁ h₂ h₃).1⟩

/-- C7: for a `data` object whose values are arrays of posts, valid dates or not,
`renderHome` writes `min(6, n)` cards, `n` being the sum of the lengths of the arrays
under all keys of `data` (mapped key or not); when `n` is at most 6 the posts shown
are all the posts of `data`. -/
theorem renderHome_card_count (parse : String → Option Int) (engine : Engine) (data : Data)
    (w : World) (harr : ValuesAreArrays data w) :
    (renderHome parse engine data w).grids "home-page" =
      (w.grids "home-page").map
        (fun _ => String.join ((latestPosts parse engine data w).map createCard)) ∧
    ((latestPosts parse engine data w).map createCard).length =
      min 6 (data.map (fun kv => (w.heap.getD kv.2 []).length)).sum ∧
    ((data.map (fun kv => (w.heap.getD kv.2 []).length)).sum ≤ 6 →
      (latestPosts parse engine data w).Perm
        (data.map (fun kv => w.heap.getD kv.2 [])).flatten) := by
  have hhome := renderHome_home parse engine data w harr
  rw [latestPosts_eq parse engine data w harr, ← length_allPostsOf]
  refine ⟨hhome, ?_, ?_⟩
  · rw [List.length_map, List.length_take, (arraySort_perm parse engine _).length_eq]
  · intro hn
    rw [List.take_of_length_le (by rw [(arraySort_perm parse engine _).length_eq]; exact hn)]
    exact arraySort_perm parse engine _

theorem renderHome_card_count_witness :
    ValuesAreArrays sampleData undatedPage ∧
    (sampleData.map (fun kv => (undatedPage.heap.getD kv.2 []).length)).sum = 7 ∧
    ((latestPosts sampleParse reversingEngine sampleData undatedPage).map createCard).length =
      min 6 (sampleData.map (fun kv => (undatedPage.heap.getD kv.2 []).length)).sum ∧
    (latestPosts sampleParse reversingEngine sampleData undatedPage).map (fun p => p.title) =
      ["Post g", "Post f", "Post e", "Post d", "Post c", "Post b"] ∧
    ((latestPosts sampleParse reversingEngine sampleData undatedPage).map createCard).length =
      6 ∧
    (renderHome sampleParse reversingEngine sampleData undatedPage).grids "home-page" =
      some (String.join
        ((latestPosts sampleParse reversingEngine sampleData undatedPage).map createCard)) :=
  ⟨by decide, by decide,
    (renderHome_card_count sampleParse reversingEngine sampleData undatedPage (by decide)).2.1,
    by decide, by decide,
    (renderHome_card_count sampleParse reversingEngine sampleData undatedPage (by decide)).1⟩

/-- C4: for each of the four mapped keys, when the fetched document holds an empty
array under the key or does not hold the key, the page-load handler sets the grid of
that category (if the page has it) to exactly the placeholder paragraph, which holds
no card markup.  A document is fetched only if the deep-linking step before the
`fetch` did not throw. -/
theorem onLoad_empty_category (parse : String → Option Int) (engine : Engine)
    (locationHash : String) (showPage : ShowPage) (heap : List (List Post)) (data : Data)
    (w : World) (kt : String × String)
    (hfetch : ∀ e, deepLink locationHash showPage w ≠ .error e)
    (hkt : kt ∈ mapping)
    (hempty : data.lookup kt.1 = none ∨ ∃ r, data.lookup kt.1 = some r ∧ heap.getD r [] = []) :
    ∃ w', onDOMContentLoaded parse engine locationHash showPage (.ok (heap, data)) w = .ok w' ∧
      w'.grids kt.2 = (w.grids kt.2).map (fun _ => placeholder) ∧
      placeholder = "<p style=\"color:var(--text-muted)\">// No entries found in this category.</p>" ∧
      ¬ Occurs "<article" placeholder := by
  obtain ⟨w1, hw1⟩ := deepLink_returns hfetch
  refine ⟨_, onDOMContentLoaded_eq parse engine locationHash showPage (.ok (heap, data)) w w1 hw1,
    ?_, rfl, by decide⟩
  have hg : w1.grids kt.2 = w.grids kt.2 := by rw [deepLink_ok hw1]; rfl
  simp only []
  rw [onData_grids_category parse engine data _ kt hkt, cellOf_eq]
  simp only [hg]
  rcases hempty with h | ⟨r, h, hr⟩
  · rw [h]
  · rw [h]
    have hr' : heap[r]?.getD [] = [] := by simpa [List.getD_eq_getElem?_getD] using hr
    simp [World.read, hr']

theorem onLoad_empty_category_witness :
    (∀ e, deepLink "" none samplePage ≠ .error e) ∧
    (("case-studies", "cases-page") ∈ mapping) ∧
    (∃ r, sampleData.lookup "case-studies" = some r ∧ sampleHeap.getD r [] = []) ∧
    ∃ w', onDOMContentLoaded sampleParse reversingEngine "" none (.ok (sampleHeap, sampleData))
        samplePage = .ok w' ∧
      w'.grids "cases-page" = (samplePage.grids "cases-page").map (fun _ => placeholder) :=
  have h₀ : ∀ e, deepLink "" none samplePage ≠ .error e := by
    intro e h
    rw [(deepLink_cases "" none samplePage).1 (Or.inr rfl)] at h
    cases h
  have h₁ : (("case-studies", "cases-page") : String × String) ∈ mapping := by decide
  have h₂ : ∃ r, sampleData.lookup "case-studies" = some r ∧ sampleHeap.getD r [] = [] :=
    ⟨2, by decide, by simp [sampleHeap]⟩
  ⟨h₀, h₁, h₂,
    (onLoad_empty_category sampleParse reversingEngine "" none sampleHeap sampleData samplePage
      ("case-studies", "cases-page") h₀ h₁ (Or.inr h₂)).imp (fun _ h => ⟨h.1, h.2.1⟩)⟩

/-- C5: when the fetch of `posts.json` fails, the page-load handler ends without an
unhandled error, logs the error with `console.error`, and leaves every container as it
was before the load.  A fetch fails only if it was called, that is if the deep-linking
step before it did not throw. -/
theorem onLoad_fetch_failure (parse : String → Option Int) (engine : Engine)
    (locationHash : String) (showPage : ShowPage) (err : String) (w : World)
    (hfetch : ∀ e, deepLink locationHash showPage w ≠ .error e) :
    ∃ w', onDOMContentLoaded parse engine locationHash showPage (.error err) w = .ok w' ∧
      w'.grids = w.grids ∧
      w'.console = w.console ++ [("Critical Error: Could not load blog database.", err)] ∧
      w'.heap = w.heap := by
  obtain ⟨w1, hw1⟩ := deepLink_returns hfetch
  refine ⟨_, onDOMContentLoaded_eq parse engine locationHash showPage (.error err) w w1 hw1, ?_⟩
  rw [deepLink_ok hw1]
  exact ⟨rfl, rfl, rfl⟩

theorem onLoad_fetch_failure_witness :
    (∀ e, deepLink "#sat" returningShowPage samplePage ≠ .error e) ∧
    ∃ w', onDOMContentLoaded sampleParse reversingEngine "#sat" returningShowPage
        (.error "TypeError: Failed to fetch") samplePage = .ok w' ∧
      w'.grids = samplePage.grids ∧
      w'.console = samplePage.console ++
        [("Critical Error: Could not load blog database.", "TypeError: Failed to fetch")] ∧
      w'.heap = samplePage.heap :=
  have h₀ : ∀ e, deepLink "#sat" returningShowPage samplePage ≠ .error e := by
    intro e h
    rw [(deepLink_cases "#sat" returningShowPage samplePage).2.1 _ () (by decide) rfl rfl] at h
    cases h
  ⟨h₀, onLoad_fetch_failure sampleParse reversingEngine "#sat" returningShowPage
    "TypeError: Failed to fetch" samplePage h₀⟩

/-- C6: rendering does not mutate the fetched document: after the four `renderToGrid`
calls and `renderHome`, every array that existed before is still there with the same
posts in the same order, in particular each category array of `data`; the array that
`renderHome` sorts in place is one created by `renderHome` itself. -/
theorem onData_keeps_data (parse : String → Option Int) (engine : Engine) (data : Data)
    (w : World) :
    w.heap <+: (onData parse engine data w).heap ∧
    (∀ kr ∈ data, kr.2 < w.heap.length →
      (onData parse engine data w).read kr.2 = w.read kr.2) ∧
    w.heap.length ≤ (sortedAll parse engine data (populated data w)).2 := by
  have h := (onData_frame parse engine data w).1
  refine ⟨h, fun kr _ hr => read_of_prefix h hr, ?_⟩
  have hf := foldl_concatStep_frame (populated data w) (objectValues data)
    ((populated data w).alloc []) (prefix_alloc _ []) (by simp [World.alloc])
    (by simp [World.alloc])
  exact le_trans (populated_heap data w).length_le hf.2.1

theorem onData_keeps_data_witness :
    (("sat-notes", 0) ∈ sampleData) ∧ 0 < samplePage.heap.length ∧
    (onData sampleParse reversingEngine sampleData samplePage).read 0 = samplePage.read 0 :=
  ⟨by decide, by decide,
    (onData_keeps_data sampleParse reversingEngine sampleData samplePage).2.1 ("sat-notes", 0)
      (by decide) (by decide)⟩

/-- C8, as the code has it: the page-load handler calls `showPage` exactly when the
fragment with its first `#` removed is non-empty and `showPage` is a function, and
passes the stripped fragment (`#sat` gives `sat`; the empty fragment and `#` give no
call).  When no call is made or the call returns, fetch and rendering go on as without
a fragment; when the call throws, the exception ends the handler. -/
theorem onLoad_deep_link (parse : String → Option Int) (engine : Engine)
    (locationHash : String) (showPage : ShowPage)
    (fetched : Except String (List (List Post) × Data)) (w : World) :
    ∃ w₀, onDOMContentLoaded parse engine "" none fetched w = .ok w₀ ∧ w₀.shown = w.shown ∧
      ((stripHash locationHash = "" ∨ showPage = none) →
        ∃ w', onDOMContentLoaded parse engine locationHash showPage fetched w = .ok w' ∧
          w'.shown = w.shown ∧
          w'.grids = w₀.grids ∧ w'.console = w₀.console ∧ w'.heap = w₀.heap) ∧
      (∀ f u, stripHash locationHash ≠ "" → showPage = some f →
        f (stripHash locationHash) = .ok u →
        ∃ w', onDOMContentLoaded parse engine locationHash showPage fetched w = .ok w' ∧
          w'.shown = w.shown ++ [stripHash locationHash] ∧
          w'.grids = w₀.grids ∧ w'.console = w₀.console ∧ w'.heap = w₀.heap) ∧
      (∀ f e, stripHash locationHash ≠ "" → showPage = some f →
        f (stripHash locationHash) = .error e →
        onDOMContentLoaded parse engine locationHash showPage fetched w = .error e) ∧
      (∀ s : String, stripHash ("#" ++ s) = s) ∧
      stripHash "#sat" = "sat" ∧ stripHash "" = "" ∧ stripHash "#" = "" := by
  have hc := deepLink_cases locationHash showPage w
  have h₀ : deepLink "" none w = .ok w := (deepLink_cases "" none w).1 (Or.inr rfl)
  refine ⟨_, onDOMContentLoaded_eq parse engine "" none fetched w w h₀,
    settled_shown parse engine fetched w, ?_, ?_, ?_, stripHash_hash, by decide, by decide,
    by decide⟩
  · intro h
    exact ⟨_, onDOMContentLoaded_eq parse engine locationHash showPage fetched w w (hc.1 h),
      settled_shown parse engine fetched w, rfl, rfl, rfl⟩
  · intro f u hs hf hu
    refine ⟨_, onDOMContentLoaded_eq parse engine locationHash showPage fetched w _
      (hc.2.1 f u hs hf hu), ?_⟩
    rw [settled_withShown]
    exact ⟨rfl, rfl, rfl, rfl⟩
  · intro f e hs hf he
    exact onDOMContentLoaded_throw parse engine locationHash showPage fetched w e
      (hc.2.2 f e hs hf he)

theorem onLoad_deep_link_witness :
    stripHash "#home" ≠ "" ∧
    (∃ w₀, onDOMContentLoaded sampleParse reversingEngine "" none (.ok (sampleHeap, sampleData))
        samplePage = .ok w₀ ∧
      ∃ w', onDOMContentLoaded sampleParse reversingEngine "#home" throwingShowPage
          (.ok (sampleHeap, sampleData)) samplePage = .ok w' ∧
        w'.shown = samplePage.shown ++ [stripHash "#home"] ∧ w'.grids = w₀.grids) ∧
    stripHash "#sat" ≠ "" ∧
    onDOMContentLoaded sampleParse reversingEngine "#sat" throwingShowPage
      (.ok (sampleHeap, sampleData)) samplePage = .error "TypeError: no such page" :=
  have h := onLoad_deep_link sampleParse reversingEngine "#home" throwingShowPage
    (.ok (sampleHeap, sampleData)) samplePage
  have h' := onLoad_deep_link sampleParse reversingEngine "#sat" throwingShowPage
    (.ok (sampleHeap, sampleData)) samplePage
  ⟨by decide,
    h.imp (fun _ hw => ⟨hw.1,
      (hw.2.2.2.1 _ () (by decide) rfl
        (if_pos (by decide : stripHash "#home" = "home"))).imp (fun _ hw' => ⟨hw'.1, hw'.2.1, hw'.2.2.1⟩)⟩),
    by decide,
    h'.elim (fun _ hw => hw.2.2.2.2.1 _ "TypeError: no such page" (by decide) rfl
      (if_neg (by decide : ¬ stripHash "#sat" = "home")))⟩

/-- C8 as the claim words it fails: with the fragment `#sat` and a `showPage` that
throws for this page, the handler ends with the exception of `showPage`; it leaves no
world in which a document was fetched and rendered. -/
theorem onLoad_deep_link_counterexample :
    stripHash "#sat" = "sat" ∧
    onDOMContentLoaded sampleParse reversingEngine "#sat" throwingShowPage
      (.ok (sampleHeap, sampleData)) samplePage = .error "TypeError: no such page" ∧
    ¬ ∃ w', onDOMContentLoaded sampleParse reversingEngine "#sat" throwingShowPage
      (.ok (sampleHeap, sampleData)) samplePage = .ok w' := by
  have hthrow : onDOMContentLoaded sampleParse reversingEngine "#sat" throwingShowPage
      (.ok (sampleHeap, sampleData)) samplePage = .error "TypeError: no such page" :=
    onDOMContentLoaded_throw _ _ _ _ _ _ _
      ((deepLink_cases "#sat" throwingShowPage samplePage).2.2 _ _ (by decide) rfl
        (if_neg (by decide : ¬ stripHash "#sat" = "home")))
  refine ⟨by decide, hthrow, ?_⟩
  rintro ⟨w', hw'⟩
  rw [hthrow] at hw'
  cases hw'

/-- C10: when the page has no `.cards-grid` under the given id, `renderToGrid` changes
nothing, and so does `renderHome` without a home grid; a missing container does not
keep the others from being rendered: each category grid that exists gets the cards of
its key (the placeholder if there is none), the home grid, if it exists, gets the
cards of the first six posts of the sorted array, and no other container changes. -/
theorem missing_container (parse : String → Option Int) (engine : Engine) (data : Data)
    (w : World) (harr : ValuesAreArrays data w) :
    (∀ posts containerId, w.grids containerId = none → renderToGrid posts containerId w = w) ∧
    (w.grids "home-page" = none → renderHome parse engine data w = w) ∧
    (∀ kt ∈ mapping,
      (onData parse engine data w).grids kt.2 =
        (w.grids kt.2).map (fun _ =>
          match data.lookup kt.1 with
          | some r =>
            if (w.heap.getD r []).length = 0 then placeholder
            else String.join ((w.heap.getD r []).map createCard)
          | none => placeholder)) ∧
    (onData parse engine data w).grids "home-page" =
      (w.grids "home-page").map (fun _ =>
        String.join (((arraySort parse engine (allPostsOf data w)).take 6).map createCard)) ∧
    (∀ k, k ∉ "home-page" :: mapping.map Prod.snd →
      (onData parse engine data w).grids k = w.grids k) := by
  refine ⟨?_, ?_, ?_, onData_grids_home parse engine data w harr, ?_⟩
  · intro posts containerId h
    simp [renderToGrid, h]
  · intro h
    simp [renderHome, h]
  · intro kt hkt
    rw [onData_grids_category parse engine data w kt hkt, cellOf_eq]
    rfl
  · intro k hk
    have hk' : k ≠ "home-page" ∧ mapping.find? (fun x => x.2 = k) = none := by
      simp only [mapping, List.map, List.mem_cons, List.mem_singleton, List.not_mem_nil,
        or_false, not_or] at hk
      obtain ⟨h0, h1, h2, h3, h4⟩ := hk
      exact ⟨h0, by simp [mapping, List.find?, Ne.symm h1, Ne.symm h2, Ne.symm h3, Ne.symm h4]⟩
    unfold onData
    rw [(renderHome_frame parse engine data _).2.1 k hk'.1, populated_grids, hk'.2]

theorem missing_container_witness :
    ValuesAreArrays sampleData sparsePage ∧
    sparsePage.grids "technical-page" = none ∧
    renderToGrid 1 "technical-page" sparsePage = sparsePage ∧
    sparsePage.grids "home-page" = none ∧
    renderHome sampleParse reversingEngine sampleData sparsePage = sparsePage ∧
    (onData sampleParse reversingEngine sampleData sparsePage).grids "sat-page" =
      some (String.join ((sampleHeap.getD 0 []).map createCard)) ∧
    (onData sampleParse reversingEngine sampleData sparsePage).grids "cases-page" =
      some placeholder ∧
    (onData sampleParse reversingEngine sampleData sparsePage).grids "technical-page" = none ∧
    (onData sampleParse reversingEngine sampleData sparsePage).grids "home-page" = none :=
  have h := missing_container sampleParse reversingEngine sampleData sparsePage (by decide)
  ⟨by decide, by decide, h.1 1 "technical-page" (by decide), by decide, h.2.1 (by decide),
    h.2.2.1 ("sat-notes", "sat-page") (by decide),
    h.2.2.1 ("case-studies", "cases-page") (by decide),
    h.2.2.1 ("technical", "technical-page") (by decide),
    h.2.2.2.1⟩

end Blog
